import Mathlib

/-!
# Mentorship platform: messaging relay and storage layer, shallow embedding

This development embeds the messaging core of the Mentorship-App server:

* the storage layer (`DatabaseStorage` in the repository, the implementation
  exported as `storage` and therefore the one deployed): user lookup,
  connection-record lookup in either direction, mentorship-match lookup,
  direct-message creation, conversation read, mark-read, unread count,
  conversation clearing, connection-record creation and update;
* the WebSocket relay handler (`wss.on('connection')` in `routes.ts`):
  authentication, the `direct_message` authorization gate and fan-out,
  and `mark_read`;
* the HTTP handlers `POST /api/connections`, `POST /api/messages` and
  `GET /api/messages/conversation/:userId`.

Machine integers are modelled as `Nat` (ids are positive serials and no
arithmetic overflows are relevant).  Database rows are records in lists kept
in insertion (append) order; SQL `ORDER BY created_at` is modelled as a sort
by `createdAt`.  A throwing `await` on the message store is modelled by the
`persistOk` flag: when it is `false` the persist step fails and control
transfers to the surrounding `catch`, which sends the generic error event.
-/

/-- A row of the `users` table (the fields the messaging core reads). -/
structure UserRec where
  id : Nat
  role : String
  username : String
  fullName : String
  active : Bool
deriving DecidableEq, Repr

/-- A row of the `user_connections` table. -/
structure UserConnection where
  id : Nat
  requesterId : Nat
  receiverId : Nat
  status : String
deriving DecidableEq, Repr

/-- A row of the `matches` table (mentorship matches). -/
structure MatchRec where
  id : Nat
  mentorId : Nat
  menteeId : Nat
  status : String
deriving DecidableEq, Repr

/-- A row of the `direct_messages` table.  `createdAt` is the server-assigned
timestamp (`defaultNow()`), modelled as a `Nat` tick. -/
structure DirectMessage where
  id : Nat
  senderId : Nat
  receiverId : Nat
  message : String
  read : Bool
  createdAt : Nat
deriving DecidableEq, Repr

/-- The database state seen by the messaging core.  `nextMessageId` and
`nextConnectionId` model the serial-id generators; `now` models the clock
used for `defaultNow()` timestamps. -/
structure DB where
  users : List UserRec
  connections : List UserConnection
  matchRecs : List MatchRec
  messages : List DirectMessage
  nextMessageId : Nat
  nextConnectionId : Nat
  now : Nat
deriving Repr

/-- `DatabaseStorage.getUser`: `SELECT * FROM users WHERE id = id`. -/
def getUser (db : DB) (id : Nat) : Option UserRec :=
  db.users.find? (fun u => u.id == id)

/-- `DatabaseStorage.getUserConnectionByUsers`: first look the pair up as
`(requesterId, receiverId)`, and if nothing is found look up the reverse
direction. -/
def getUserConnectionByUsers (db : DB) (requesterId receiverId : Nat) :
    Option UserConnection :=
  match db.connections.find?
      (fun c => c.requesterId == requesterId && c.receiverId == receiverId) with
  | some c => some c
  | none =>
      db.connections.find?
        (fun c => c.requesterId == receiverId && c.receiverId == requesterId)

/-- `DatabaseStorage.getMatchesByMentor` (no status filter, as called by the
relay): all matches whose `mentorId` is the given user. -/
def getMatchesByMentor (db : DB) (mentorId : Nat) : List MatchRec :=
  db.matchRecs.filter (fun m => m.mentorId == mentorId)

/-- `DatabaseStorage.getMatchesByMentee`: all matches whose `menteeId` is the
given user. -/
def getMatchesByMentee (db : DB) (menteeId : Nat) : List MatchRec :=
  db.matchRecs.filter (fun m => m.menteeId == menteeId)

/-- `DatabaseStorage.createDirectMessage`: insert a row with a server-assigned
id and timestamp and `read = false` (the schema default; the relay also passes
`read: false` explicitly), returning the created row. -/
def createDirectMessage (db : DB) (senderId receiverId : Nat) (content : String) :
    DirectMessage × DB :=
  let msg : DirectMessage :=
    { id := db.nextMessageId, senderId := senderId, receiverId := receiverId,
      message := content, read := false, createdAt := db.now }
  (msg, { db with messages := db.messages ++ [msg],
                  nextMessageId := db.nextMessageId + 1 })

/-- A message belongs to the conversation of the (unordered) pair `a, b`:
sent in either direction between the two. -/
def between (a b : Nat) (m : DirectMessage) : Bool :=
  (m.senderId == a && m.receiverId == b) || (m.senderId == b && m.receiverId == a)

/-- Creation-time (non-strict) order on messages, the `ORDER BY created_at`
key of `getConversation`. -/
def msgLE (x y : DirectMessage) : Prop :=
  x.createdAt ≤ y.createdAt

instance : DecidableRel msgLE := fun x y => Nat.decLe x.createdAt y.createdAt

instance : IsTotal DirectMessage msgLE :=
  ⟨fun x y => Nat.le_total x.createdAt y.createdAt⟩

instance : IsTrans DirectMessage msgLE :=
  ⟨fun _ _ _ h h' => Nat.le_trans h h'⟩

/-- `DatabaseStorage.getConversation`: the rows between the two users in
either direction, `ORDER BY created_at` ascending. -/
def getConversation (db : DB) (user1Id user2Id : Nat) : List DirectMessage :=
  List.insertionSort msgLE (db.messages.filter (between user1Id user2Id))

/-- The per-row effect of `DatabaseStorage.markMessagesAsRead`'s `UPDATE`:
rows matching `sender_id = senderId AND receiver_id = receiverId AND
read = false` get `read` set to `true`. -/
def markReadRow (senderId receiverId : Nat) (m : DirectMessage) : DirectMessage :=
  if m.senderId == senderId && m.receiverId == receiverId && m.read == false
  then { m with read := true } else m

/-- `DatabaseStorage.markMessagesAsRead senderId receiverId`: mark every
currently-unread message sent by `senderId` to `receiverId` as read. -/
def markMessagesAsRead (db : DB) (senderId receiverId : Nat) : DB :=
  { db with messages := db.messages.map (markReadRow senderId receiverId) }

/-- `DatabaseStorage.getUnreadMessageCount`: count of rows with
`receiver_id = userId AND read = false`. -/
def getUnreadMessageCount (db : DB) (userId : Nat) : Nat :=
  (db.messages.filter (fun m => m.receiverId == userId && m.read == false)).length

/-- `DatabaseStorage.clearConversation`: delete every message between the two
users (either direction); returns `true` on success. -/
def clearConversation (db : DB) (userId1 userId2 : Nat) : Bool × DB :=
  (true, { db with messages := db.messages.filter (fun m => !(between userId1 userId2 m)) })

/-- `DatabaseStorage.createUserConnection`: insert a connection row with a
server-assigned id and status forced to `pending`. -/
def createUserConnection (db : DB) (requesterId receiverId : Nat) :
    UserConnection × DB :=
  let c : UserConnection :=
    { id := db.nextConnectionId, requesterId := requesterId,
      receiverId := receiverId, status := "pending" }
  (c, { db with connections := db.connections ++ [c],
                nextConnectionId := db.nextConnectionId + 1 })

/-- `DatabaseStorage.updateUserConnection` as called by the handlers we embed:
the partial update `{ status }` applied to the row with the given id. -/
def updateUserConnection (db : DB) (id : Nat) (status : String) : DB :=
  { db with connections :=
      db.connections.map (fun c => if c.id == id then { c with status := status } else c) }

/-- The `direct_message` authorization gate (routes.ts, `allowMessage`):
allow when an accepted connection record exists for the pair (either
direction); otherwise, when both users exist, fall back to the mentorship
check — if the sender's role is `mentor`, look for an approved match with the
receiver as mentee; else if the receiver's role is `mentor`, look for an
approved match of the sender (as mentee) with the receiver as mentor. -/
def canMessage (db : DB) (senderId receiverId : Nat) : Bool :=
  let connAllow :=
    match getUserConnectionByUsers db senderId receiverId with
    | some c => c.status == "accepted"
    | none => false
  if connAllow then true
  else
    match getUser db senderId, getUser db receiverId with
    | some sender, some receiver =>
        if sender.role == "mentor" then
          (getMatchesByMentor db senderId).any
            (fun m => m.menteeId == receiverId && m.status == "approved")
        else if receiver.role == "mentor" then
          (getMatchesByMentee db senderId).any
            (fun m => m.mentorId == receiverId && m.status == "approved")
        else false
    | _, _ => false

/-! ## The WebSocket relay (`wss.on('connection')` in `routes.ts`) -/

/-- A transport connection (a `WebSocket` object).  `id` models object
identity; `isOpen` models `readyState === WebSocket.OPEN`. -/
structure Conn where
  id : Nat
  isOpen : Bool
deriving DecidableEq, Repr

/-- The `connectedClients` map from user id to that user's connections.
An absent key and an empty list are indistinguishable through
`connectedClients.get(id) || []`, so the registry is a total function. -/
abbrev Registry := Nat → List Conn

/-- `connectedClients.set u l`. -/
def Registry.update (reg : Registry) (u : Nat) (l : List Conn) : Registry :=
  fun v => if v = u then l else reg v

/-- The process state the relay touches: the database and the registry. -/
structure ServerState where
  db : DB
  registry : Registry

/-- An inbound WebSocket frame after `JSON.parse`, by `data.type`.
`auth` carries `parseInt(data.userId)` (`none` for `NaN`); `directMessage`
carries `data.message.receiverId`/`content` when both are present;
`markRead` carries `data.senderId` when present and truthy.  `otherEvent`
is any other parsed frame (no branch of the handler matches it). -/
inductive InEvent where
  | auth (userId : Option Nat)
  | directMessage (payload : Option (Nat × String))
  | markRead (senderId : Option Nat)
  | otherEvent
deriving DecidableEq, Repr

/-- The sender details attached to a `new_message` event. -/
structure SenderInfo where
  id : Nat
  username : String
  fullName : String
deriving DecidableEq, Repr

/-- An outbound WebSocket event, by its `type` field. -/
inductive OutEvent where
  | authSuccess (userId : Nat)
  | errorEv (message : String)
  | messageSent (message : DirectMessage)
  | newMessage (message : DirectMessage) (sender : Option SenderInfo)
  | messagesMarkedRead (senderId : Nat)
deriving DecidableEq, Repr

/-- The `senderDetails` object built before fan-out. -/
def senderInfoOf (db : DB) (uid : Nat) : Option SenderInfo :=
  (getUser db uid).map (fun u => { id := u.id, username := u.username, fullName := u.fullName })

/-- One step of the `ws.on('message')` handler.  Arguments: the shared state,
the connection the frame arrived on, the connection's `userId` variable
(`none` while unauthenticated), the parsed frame, and whether the message
store accepts writes (`persistOk = false` models `createDirectMessage`
throwing, which lands in the surrounding `catch` and sends the generic
`Invalid message format` error).  Returns the new state, the new value of
`userId`, and the emitted events as `(target connection id, event)` pairs in
emission order. -/
def wsStep (st : ServerState) (ws : Conn) (authUser : Option Nat)
    (ev : InEvent) (persistOk : Bool) :
    ServerState × Option Nat × List (Nat × OutEvent) :=
  match ev with
  | .auth uid? =>
      match uid? with
      | some uid =>
          if uid ≠ 0 then
            -- drop stale connections for this user, then append this one
            let active := (st.registry uid).filter (fun c => c.isOpen) ++ [ws]
            ({ st with registry := st.registry.update uid active },
             some uid, [(ws.id, .authSuccess uid)])
          else
            -- parseInt gave 0, which is falsy: stay unauthenticated
            (st, none, [(ws.id, .errorEv "Invalid user ID")])
      | none => (st, none, [(ws.id, .errorEv "Invalid user ID")])
  | .directMessage payload? =>
      match authUser with
      | none => (st, none, [])   -- branch guard `&& userId` fails: frame ignored
      | some sid =>
          match payload? with
          | none =>
              (st, some sid, [(ws.id, .errorEv "Missing required fields for direct message")])
          | some (rid, content) =>
              if canMessage st.db sid rid then
                if persistOk then
                  let saved := (createDirectMessage st.db sid rid content).1
                  let db' := (createDirectMessage st.db sid rid content).2
                  let active := (st.registry rid).filter (fun c => c.isOpen)
                  let registry' :=
                    if active.length > 0 then st.registry.update rid active else st.registry
                  ({ db := db', registry := registry' }, some sid,
                   (ws.id, .messageSent saved) ::
                     active.map (fun c => (c.id, .newMessage saved (senderInfoOf db' sid))))
                else
                  (st, some sid, [(ws.id, .errorEv "Invalid message format")])
              else
                (st, some sid,
                 [(ws.id, .errorEv "No active connection or mentorship relationship with this user")])
  | .markRead sid? =>
      match authUser with
      | none => (st, none, [])   -- branch guard `&& userId` fails: frame ignored
      | some uid =>
          match sid? with
          | none => (st, some uid, [(ws.id, .errorEv "Missing sender ID")])
          | some senderId =>
              ({ st with db := markMessagesAsRead st.db senderId uid },
               some uid, [(ws.id, .messagesMarkedRead senderId)])
  | .otherEvent => (st, authUser, [])

/-! ## HTTP handlers (`routes.ts`)

The handlers below are embedded as functions of the database state; the
WebSocket notifications they attempt do not change the database (and the
`POST /api/connections` / `POST /api/messages` notifications look the
receiver up under a *string* key in the numerically-keyed `connectedClients`
map, so they never find a connection), so only the database effect and the
HTTP response are modelled. -/

/-- `POST /api/connections` (requireAuth; `authUserId` is `req.user.id`).
Zod has already validated the field types.  Returns the new database state,
the HTTP status code, and the error message if any. -/
def postConnections (db : DB) (authUserId requesterId receiverId : Nat) :
    DB × Nat × String :=
  if requesterId ≠ authUserId then
    (db, 403, "Not authorized to create this connection")
  else
    match getUserConnectionByUsers db requesterId receiverId with
    | some existing =>
        if existing.status == "rejected" then
          (updateUserConnection db existing.id "pending", 200, "")
        else
          (db, 400, "Connection already exists")
    | none =>
        ((createUserConnection db requesterId receiverId).2, 201, "")

/-- `POST /api/messages` (requireAuth).  Allows the send only when the sender
is the authenticated user and an accepted connection record exists for the
pair; then persists via `createDirectMessage`. -/
def postMessages (db : DB) (authUserId senderId receiverId : Nat) (content : String) :
    DB × Nat :=
  if senderId ≠ authUserId then (db, 403)
  else
    match getUserConnectionByUsers db senderId receiverId with
    | some c =>
        if c.status == "accepted" then
          ((createDirectMessage db senderId receiverId content).2, 201)
        else (db, 403)
    | none => (db, 403)

/-- `GET /api/messages/conversation/:userId` (requireAuth; `authUserId` is
`req.user.id`, `otherUserId` the path parameter).  Requires an accepted
connection, then calls `markMessagesAsRead(authUserId, otherUserId)` and
returns the conversation. -/
def getConversationEndpoint (db : DB) (authUserId otherUserId : Nat) :
    DB × Nat × List DirectMessage :=
  match getUserConnectionByUsers db authUserId otherUserId with
  | some c =>
      if c.status == "accepted" then
        let db' := markMessagesAsRead db authUserId otherUserId
        (db', 200, getConversation db' authUserId otherUserId)
      else (db, 403, [])
  | none => (db, 403, [])

/-! ## Concrete states used to exercise the model -/

/-- Test user 1. -/
def u1 : UserRec := ⟨1, "mentee", "alice", "Alice A", true⟩

/-- Test user 2. -/
def u2 : UserRec := ⟨2, "mentee", "bob", "Bob B", true⟩

/-- Users 1 and 2 with an accepted connection, empty message store. -/
def dbPair : DB :=
  { users := [u1, u2], connections := [⟨1, 1, 2, "accepted"⟩], matchRecs := [],
    messages := [], nextMessageId := 1, nextConnectionId := 2, now := 5 }

/-- The sender's own live connection. -/
def wsSender : Conn := ⟨100, true⟩

/-- Registry where user 2 has two live connections. -/
def regPair : Registry := fun v => if v = 2 then [⟨201, true⟩, ⟨202, true⟩] else []

/-- Server state: `dbPair` with user 2 doubly connected. -/
def stPair : ServerState := ⟨dbPair, regPair⟩

/-- Registry where user 2's only registered connection is already closed. -/
def regStale : Registry := fun v => if v = 2 then [⟨210, false⟩] else []

/-- Server state: `dbPair`, but user 2's only registered connection is dead. -/
def stStale : ServerState := ⟨dbPair, regStale⟩

/-- Users 3 and 4 with no connection record and no match. -/
def dbNoRel : DB :=
  { users := [⟨3, "mentee", "carol", "Carol C", true⟩, ⟨4, "mentor", "dave", "Dave D", true⟩],
    connections := [], matchRecs := [], messages := [],
    nextMessageId := 1, nextConnectionId := 1, now := 0 }

/-- Server state over `dbNoRel` with an empty registry. -/
def stNoRel : ServerState := ⟨dbNoRel, fun _ => []⟩

/-- User 1 with an accepted connection record whose two endpoints are both
user 1 (a self-connection, creatable through `POST /api/connections` since
nothing forbids `receiverId = requesterId`). -/
def dbSelf : DB :=
  { users := [u1], connections := [⟨1, 1, 1, "accepted"⟩], matchRecs := [],
    messages := [], nextMessageId := 1, nextConnectionId := 2, now := 0 }

/-- Server state over `dbSelf` with an empty registry. -/
def stSelf : ServerState := ⟨dbSelf, fun _ => []⟩

/-- Users 1 and 2 with a rejected connection record. -/
def dbRej : DB :=
  { users := [u1, u2], connections := [⟨1, 1, 2, "rejected"⟩], matchRecs := [],
    messages := [], nextMessageId := 1, nextConnectionId := 2, now := 0 }

/-- A store with messages in both directions between 1 and 2 and one message
to a third user. -/
def dbMsgs : DB :=
  { users := [u1, u2], connections := [⟨1, 1, 2, "accepted"⟩], matchRecs := [],
    messages := [⟨1, 1, 2, "hi", false, 1⟩, ⟨2, 2, 1, "yo", false, 2⟩,
                 ⟨3, 1, 3, "aside", false, 3⟩],
    nextMessageId := 4, nextConnectionId := 2, now := 9 }

/-! ## Theorems -/

/-- `markReadRow` on a matching unread row sets its flag. -/
theorem markReadRow_eq_update (a b : Nat) (m : DirectMessage)
    (h : (m.senderId == a && m.receiverId == b && m.read == false) = true) :
    markReadRow a b m = { m with read := true } := by
  unfold markReadRow; rw [if_pos h]

/-- `markReadRow` on a non-matching row is the identity. -/
theorem markReadRow_eq_self (a b : Nat) (m : DirectMessage)
    (h : (m.senderId == a && m.receiverId == b && m.read == false) = false) :
    markReadRow a b m = m := by
  unfold markReadRow
  rw [if_neg (fun hc => Bool.noConfusion (hc ▸ h))]

/-- Marking twice is marking once, row by row. -/
theorem markReadRow_idem (a b : Nat) (m : DirectMessage) :
    markReadRow a b (markReadRow a b m) = markReadRow a b m := by
  cases h : (m.senderId == a && m.receiverId == b && m.read == false) with
  | true =>
      rw [markReadRow_eq_update a b m h]
      apply markReadRow_eq_self
      simp
  | false =>
      rw [markReadRow_eq_self a b m h, markReadRow_eq_self a b m h]

/--
**C7.** `markMessagesAsRead` (the deployed `DatabaseStorage` implementation)
is idempotent: applying it twice with the same arguments yields the same
store state as applying it once.  Moreover its effect is exactly to set
`read = true` on the currently-unread messages sent by `a` to `b`: each
stored message keeps its identity, endpoints, body and timestamp, and ends
up read precisely when it was already read or is a message from `a` to `b`.
-/
theorem markMessagesAsRead_idempotent_exact (db : DB) (a b : Nat) :
    markMessagesAsRead (markMessagesAsRead db a b) a b = markMessagesAsRead db a b ∧
    List.Forall₂ (fun m m' =>
        m'.id = m.id ∧ m'.senderId = m.senderId ∧ m'.receiverId = m.receiverId ∧
        m'.message = m.message ∧ m'.createdAt = m.createdAt ∧
        (m'.read = true ↔ (m.read = true ∨ (m.senderId = a ∧ m.receiverId = b))))
      db.messages (markMessagesAsRead db a b).messages := by
  constructor
  · show ({ db with messages := (db.messages.map (markReadRow a b)).map (markReadRow a b) } : DB)
        = { db with messages := db.messages.map (markReadRow a b) }
    rw [List.map_map]
    congr 1
    apply List.map_congr_left
    intro m _
    exact markReadRow_idem a b m
  · show List.Forall₂ _ db.messages (db.messages.map (markReadRow a b))
    rw [List.forall₂_map_right_iff, List.forall₂_same]
    intro m _
    cases h : (m.senderId == a && m.receiverId == b && m.read == false) with
    | true =>
        rw [markReadRow_eq_update a b m h]
        simp only [Bool.and_eq_true, beq_iff_eq] at h
        exact ⟨rfl, rfl, rfl, rfl, rfl, by simp [h.1.1, h.1.2]⟩
    | false =>
        rw [markReadRow_eq_self a b m h]
        refine ⟨rfl, rfl, rfl, rfl, rfl, ?_⟩
        constructor
        · exact fun hr => Or.inl hr
        · rintro (hr | ⟨ha, hb⟩)
          · exact hr
          · cases hread : m.read with
            | true => rfl
            | false => rw [ha, hb, hread] at h; simp at h

/--
**C8.** For a fixed pair of users, `getConversation` returns exactly the
messages exchanged between the two in either direction, sorted in
non-decreasing creation-time order; and when the store lists messages in
non-decreasing timestamp order (which appends maintain, last conjunct), the
returned sequence is precisely the stored (append-order) subsequence for the
pair, i.e. it matches the order in which the messages were appended.
-/
theorem getConversation_exact_sorted (db : DB) (a b : Nat) :
    (∀ m, m ∈ getConversation db a b ↔ m ∈ db.messages ∧ between a b m = true) ∧
    List.Sorted msgLE (getConversation db a b) ∧
    (List.Sorted msgLE db.messages →
      getConversation db a b = db.messages.filter (between a b)) ∧
    (∀ s r c, List.Sorted msgLE db.messages →
      (∀ m ∈ db.messages, m.createdAt ≤ db.now) →
      List.Sorted msgLE ((createDirectMessage db s r c).2.messages)) := by
  refine ⟨?_, ?_, ?_, ?_⟩
  · intro m
    rw [getConversation, List.mem_insertionSort, List.mem_filter]
  · exact List.sorted_insertionSort msgLE _
  · intro hs
    exact List.Sorted.insertionSort_eq (hs.filter _)
  · intro s r c hs hmax
    show List.Sorted msgLE (db.messages ++ [_])
    show List.Pairwise msgLE _
    rw [List.pairwise_append]
    refine ⟨hs, List.pairwise_singleton _ _, ?_⟩
    intro x hx y hy
    rw [List.mem_singleton] at hy
    subst hy
    exact hmax x hx

/-- A message of one conversation pair is not a message of a different
(unordered) pair. -/
theorem between_false_of_other_pair {a b c d : Nat} (m : DirectMessage)
    (h : ¬((c = a ∧ d = b) ∨ (c = b ∧ d = a)))
    (hm : between c d m = true) : between a b m = false := by
  rw [← Bool.not_eq_true]
  intro hab
  simp only [between, Bool.or_eq_true, Bool.and_eq_true, beq_iff_eq] at hm hab
  rcases hm with ⟨h1, h2⟩ | ⟨h1, h2⟩ <;> rcases hab with ⟨h3, h4⟩ | ⟨h3, h4⟩ <;>
    exact absurd (by omega) h

/--
**C9.** Conversation clearing is total: `clearConversation A B` returns
`true`, afterwards the conversation read between `A` and `B` is empty (every
message between the pair, in both directions, is gone), and the conversation
of any other pair of users is unchanged.
-/
theorem clearConversation_total (db : DB) (a b : Nat) :
    (clearConversation db a b).1 = true ∧
    getConversation (clearConversation db a b).2 a b = [] ∧
    (∀ c d, ¬((c = a ∧ d = b) ∨ (c = b ∧ d = a)) →
      getConversation (clearConversation db a b).2 c d = getConversation db c d) := by
  refine ⟨rfl, ?_, ?_⟩
  · show List.insertionSort msgLE
        ((db.messages.filter (fun m => !(between a b m))).filter (between a b)) = []
    rw [List.filter_filter]
    have hnil : db.messages.filter (fun m => between a b m && !(between a b m)) = [] := by
      rw [List.filter_eq_nil_iff]
      intro m _
      simp
    rw [hnil, List.insertionSort]
  · intro c d h
    show List.insertionSort msgLE
        ((db.messages.filter (fun m => !(between a b m))).filter (between c d)) =
      List.insertionSort msgLE (db.messages.filter (between c d))
    rw [List.filter_filter]
    congr 1
    apply List.filter_congr
    intro m _
    cases hcd : between c d m with
    | false => simp [hcd]
    | true => simp [hcd, between_false_of_other_pair m h hcd]

/-- Marking the `U → V` direction read does not change `U`'s unread count
(which counts messages *addressed to* `U`) when `U ≠ V`. -/
theorem unreadCount_markRead_of_ne (db : DB) (U V : Nat) (hne : U ≠ V) :
    getUnreadMessageCount (markMessagesAsRead db U V) U = getUnreadMessageCount db U := by
  show (List.filter _ (db.messages.map (markReadRow U V))).length = _
  rw [getUnreadMessageCount, ← List.countP_eq_length_filter, ← List.countP_eq_length_filter,
    List.countP_map]
  apply List.countP_congr
  intro m _
  have hbool : ((markReadRow U V m).receiverId == U && (markReadRow U V m).read == false) =
      (m.receiverId == U && m.read == false) := by
    cases h : (m.senderId == U && m.receiverId == V && m.read == false) with
    | true =>
        rw [markReadRow_eq_update U V m h]
        simp only [Bool.and_eq_true, beq_iff_eq] at h
        have hru : m.receiverId ≠ U := by rw [h.1.2]; exact fun e => hne e.symm
        simp [hru]
    | false => rw [markReadRow_eq_self U V m h]
  rw [Function.comp_apply, hbool]

/--
**C10.** On `GET /api/messages/conversation/:userId` by authenticated user
`U` about counterparty `V` (with an accepted connection between them), the
read-marking performed is `markMessagesAsRead U V`, which under the deployed
`DatabaseStorage` marks exactly the unread messages `U` sent to `V`; the
messages `V` sent to `U` keep their read flags, so `U`'s unread count is not
reduced by viewing the conversation.
-/
theorem conversationRead_marks_sent_direction (db : DB) (U V : Nat)
    (c : UserConnection) (hc : getUserConnectionByUsers db U V = some c)
    (hst : c.status = "accepted") (hne : U ≠ V) :
    (getConversationEndpoint db U V).1 = markMessagesAsRead db U V ∧
    getUnreadMessageCount (getConversationEndpoint db U V).1 U = getUnreadMessageCount db U ∧
    List.Forall₂ (fun m m' => (m.senderId = V ∧ m.receiverId = U) → m'.read = m.read)
      db.messages (getConversationEndpoint db U V).1.messages := by
  have hend : (getConversationEndpoint db U V).1 = markMessagesAsRead db U V := by
    simp only [getConversationEndpoint, hc]
    rw [if_pos (show (c.status == "accepted") = true by simp [hst])]
  refine ⟨hend, ?_, ?_⟩
  · rw [hend]
    exact unreadCount_markRead_of_ne db U V hne
  · rw [hend]
    show List.Forall₂ _ db.messages (db.messages.map (markReadRow U V))
    rw [List.forall₂_map_right_iff, List.forall₂_same]
    intro m _
    rintro ⟨hs, _⟩
    have hcond : (m.senderId == U && m.receiverId == V && m.read == false) = false := by
      have hVU : (m.senderId == U) = false := by
        rw [hs]
        exact beq_eq_false_iff_ne.mpr (fun e => hne e.symm)
      simp [hVU]
    rw [markReadRow_eq_self U V m hcond]

/--
**C6.** `POST /api/connections` preserves the one-record-per-unordered-pair
invariant: whenever a record between the two users already exists (in either
direction — `getUserConnectionByUsers` checks both), then either the
existing record's status is `rejected` and that very record is updated to
`pending` with no new record created (status 200), or the request is refused
with status 400 and "Connection already exists" and the store is unchanged.
This holds for whichever of the two parties sends the new request, since
`req`/`rec` are arbitrary and the lookup is direction-agnostic.
-/
theorem postConnections_existing_pair (db : DB) (u req rec : Nat)
    (c : UserConnection) (hauth : req = u)
    (hc : getUserConnectionByUsers db req rec = some c) :
    (c.status = "rejected" →
       (postConnections db u req rec).1.connections =
         db.connections.map
           (fun x => if x.id == c.id then { x with status := "pending" } else x) ∧
       (postConnections db u req rec).2.1 = 200) ∧
    (c.status ≠ "rejected" →
       (postConnections db u req rec).1 = db ∧
       (postConnections db u req rec).2 = (400, "Connection already exists")) := by
  have hne : ¬(req ≠ u) := fun h => h hauth
  constructor
  · intro hst
    simp only [postConnections, if_neg hne, hc]
    rw [if_pos (show (c.status == "rejected") = true by simp [hst])]
    exact ⟨rfl, rfl⟩
  · intro hst
    simp only [postConnections, if_neg hne, hc]
    rw [if_neg (show ¬((c.status == "rejected") = true) by simpa using hst)]
    exact ⟨rfl, rfl⟩

/-- A connection record returned by `getUserConnectionByUsers` is a stored
record whose endpoints are the queried pair, in one direction or the other. -/
theorem getUserConnectionByUsers_mem (db : DB) (s r : Nat) (c : UserConnection)
    (hc : getUserConnectionByUsers db s r = some c) :
    c ∈ db.connections ∧
      ((c.requesterId = s ∧ c.receiverId = r) ∨ (c.requesterId = r ∧ c.receiverId = s)) := by
  rw [getUserConnectionByUsers] at hc
  cases hf : db.connections.find? (fun x => x.requesterId == s && x.receiverId == r) with
  | some c' =>
      rw [hf] at hc
      cases hc
      have hmem := List.mem_of_find?_eq_some hf
      have hp := List.find?_some hf
      simp only [Bool.and_eq_true, beq_iff_eq] at hp
      exact ⟨hmem, Or.inl hp⟩
  | none =>
      rw [hf] at hc
      have hmem := List.mem_of_find?_eq_some hc
      have hp := List.find?_some hc
      simp only [Bool.and_eq_true, beq_iff_eq] at hp
      exact ⟨hmem, Or.inr hp⟩

/-- When no accepted connection record and no approved match relates the two
users, the relay's authorization gate denies. -/
theorem canMessage_eq_false (db : DB) (s r : Nat)
    (h1 : ∀ c ∈ db.connections,
      ((c.requesterId = s ∧ c.receiverId = r) ∨ (c.requesterId = r ∧ c.receiverId = s)) →
      c.status ≠ "accepted")
    (h2 : ∀ mt ∈ db.matchRecs, mt.status = "approved" →
      ¬((mt.mentorId = s ∧ mt.menteeId = r) ∨ (mt.mentorId = r ∧ mt.menteeId = s))) :
    canMessage db s r = false := by
  have hconn : (match getUserConnectionByUsers db s r with
      | some c => c.status == "accepted"
      | none => false) = false := by
    cases hc : getUserConnectionByUsers db s r with
    | none => rfl
    | some c =>
        obtain ⟨hmem, hpair⟩ := getUserConnectionByUsers_mem db s r c hc
        simpa using h1 c hmem hpair
  have hmentor : (getMatchesByMentor db s).any
      (fun m => m.menteeId == r && m.status == "approved") = false := by
    rw [Bool.eq_false_iff]
    intro hany
    rw [List.any_eq_true] at hany
    obtain ⟨mt, hmt, hp⟩ := hany
    rw [getMatchesByMentor, List.mem_filter] at hmt
    obtain ⟨hmem, hmtor⟩ := hmt
    simp only [Bool.and_eq_true, beq_iff_eq] at hp hmtor
    exact h2 mt hmem hp.2 (Or.inl ⟨hmtor, hp.1⟩)
  have hmentee : (getMatchesByMentee db s).any
      (fun m => m.mentorId == r && m.status == "approved") = false := by
    rw [Bool.eq_false_iff]
    intro hany
    rw [List.any_eq_true] at hany
    obtain ⟨mt, hmt, hp⟩ := hany
    rw [getMatchesByMentee, List.mem_filter] at hmt
    obtain ⟨hmem, hmtee⟩ := hmt
    simp only [Bool.and_eq_true, beq_iff_eq] at hp hmtee
    exact h2 mt hmem hp.2 (Or.inr ⟨hp.1, hmtee⟩)
  rw [canMessage]
  simp only [hconn, if_neg]
  cases getUser db s with
  | none => rfl
  | some sender =>
      cases getUser db r with
      | none => rfl
      | some receiver =>
          by_cases hrole : (sender.role == "mentor") = true
          · simp [hrole, hmentor]
          · by_cases hrole' : (receiver.role == "mentor") = true
            · simp [hrole, hrole', hmentee]
            · simp [hrole, hrole']

/--
**C1.** Authorization gate: when a `direct_message` is sent by authenticated
sender `sid` to receiver `rid` and there is neither a connection record with
status `accepted` between them (either direction) nor an approved
mentor–mentee match between them (either direction), the relay persists
nothing and changes no state — the conversation between the two is unchanged
— and emits exactly one event: an `error` on the sender's own connection.
No `new_message` reaches any connection of `rid`.
-/
theorem wsDirectMessage_unauthorized_denied (st : ServerState) (ws : Conn)
    (sid rid : Nat) (content : String) (ok : Bool)
    (h1 : ∀ c ∈ st.db.connections,
      ((c.requesterId = sid ∧ c.receiverId = rid) ∨
       (c.requesterId = rid ∧ c.receiverId = sid)) → c.status ≠ "accepted")
    (h2 : ∀ mt ∈ st.db.matchRecs, mt.status = "approved" →
      ¬((mt.mentorId = sid ∧ mt.menteeId = rid) ∨
        (mt.mentorId = rid ∧ mt.menteeId = sid))) :
    wsStep st ws (some sid) (InEvent.directMessage (some (rid, content))) ok =
      (st, some sid,
       [(ws.id, OutEvent.errorEv
           "No active connection or mentorship relationship with this user")]) := by
  have hcan := canMessage_eq_false st.db sid rid h1 h2
  simp [wsStep, hcan]

/--
**C2.** Persistence before delivery: whenever the relay emits `message_sent`
(to the sender) or `new_message` (to a receiver connection) while handling a
`direct_message` frame, the persist step succeeded (`persistOk = true`) and
the carried message is retrievable from the resulting state via the
conversation read between its sender and receiver.  In particular, when the
store write fails, no fan-out of either event occurs.
-/
theorem wsDirectMessage_persist_before_delivery (st : ServerState) (ws : Conn)
    (sid : Nat) (payload : Option (Nat × String)) (ok : Bool) (cid : Nat)
    (m : DirectMessage) (sd : Option SenderInfo)
    (h : (cid, OutEvent.newMessage m sd) ∈
           (wsStep st ws (some sid) (InEvent.directMessage payload) ok).2.2 ∨
         (cid, OutEvent.messageSent m) ∈
           (wsStep st ws (some sid) (InEvent.directMessage payload) ok).2.2) :
    ok = true ∧
    m ∈ getConversation
          (wsStep st ws (some sid) (InEvent.directMessage payload) ok).1.db
          m.senderId m.receiverId := by
  cases payload with
  | none => simp [wsStep] at h
  | some p =>
      obtain ⟨rid, content⟩ := p
      by_cases hcan : canMessage st.db sid rid = true
      · cases ok with
        | false => simp [wsStep, hcan] at h
        | true =>
            refine ⟨rfl, ?_⟩
            have houts : (wsStep st ws (some sid)
                (InEvent.directMessage (some (rid, content))) true).2.2 =
                (ws.id, OutEvent.messageSent (createDirectMessage st.db sid rid content).1) ::
                  ((st.registry rid).filter (fun c => c.isOpen)).map
                    (fun c => (c.id, OutEvent.newMessage
                      (createDirectMessage st.db sid rid content).1
                      (senderInfoOf (createDirectMessage st.db sid rid content).2 sid))) := by
              simp [wsStep, hcan]
            have hdb : (wsStep st ws (some sid)
                (InEvent.directMessage (some (rid, content))) true).1.db =
                (createDirectMessage st.db sid rid content).2 := by
              simp [wsStep, hcan]
            rw [houts] at h
            have hm : m = (createDirectMessage st.db sid rid content).1 := by
              rcases h with h | h
              · rcases List.mem_cons.mp h with heq | hmem
                · exact absurd (congrArg Prod.snd heq) (by simp)
                · obtain ⟨c, _, heq⟩ := List.mem_map.mp hmem
                  have hsnd := congrArg Prod.snd heq
                  injection hsnd with hsaved _
                  exact hsaved.symm
              · rcases List.mem_cons.mp h with heq | hmem
                · have hsnd := congrArg Prod.snd heq
                  injection hsnd
                · obtain ⟨c, _, heq⟩ := List.mem_map.mp hmem
                  exact absurd (congrArg Prod.snd heq) (by simp)
            rw [hdb, hm, getConversation]
            rw [List.mem_insertionSort, List.mem_filter]
            constructor
            · exact List.mem_append_right _ (List.mem_singleton_self _)
            · simp [between]
      · simp [wsStep, hcan] at h

/--
**C3, counterexample.** When the receiver's only registered connection is
already closed at fan-out time, the relay accepts and persists the message
(a `message_sent` is emitted), the closed connection receives nothing — but
it is *not* removed from the registry entry for the receiver: the pruning
write `connectedClients.set(receiverId, activeReceiverConnections)` only runs
when at least one open connection was found, so the stale entry survives,
contradicting the claim that closed connections are removed from the
registry snapshot stored for the receiver.
-/
theorem wsDirectMessage_closed_conn_not_pruned :
    ((wsStep stStale wsSender (some 1) (InEvent.directMessage (some (2, "hi"))) true).2.2.any
       (fun o => match o.2 with | OutEvent.messageSent _ => true | _ => false)) = true ∧
    (wsStep stStale wsSender (some 1)
        (InEvent.directMessage (some (2, "hi"))) true).1.registry 2 = [⟨210, false⟩] := by
  decide

/--
**C3, amended.** When an authorized `direct_message` is persisted
(`persistOk = true`): the sender's connection receives `message_sent` with
the persisted message; every connection of the receiver that is open at
fan-out time receives `new_message` with the persisted message; a closed
connection of the receiver receives nothing (given connection ids are
distinct); and the closed connections are removed from the receiver's
registry entry **provided at least one open connection exists** — when the
receiver has no open connection the registry is left unchanged (stale
entries are not pruned in that case).
-/
theorem wsDirectMessage_fanout (st : ServerState) (ws : Conn) (sid rid : Nat)
    (content : String) (hcan : canMessage st.db sid rid = true) :
    ((ws.id, OutEvent.messageSent (createDirectMessage st.db sid rid content).1) ∈
       (wsStep st ws (some sid) (InEvent.directMessage (some (rid, content))) true).2.2) ∧
    (∀ c ∈ st.registry rid, c.isOpen = true →
       (c.id, OutEvent.newMessage (createDirectMessage st.db sid rid content).1
          (senderInfoOf (createDirectMessage st.db sid rid content).2 sid)) ∈
         (wsStep st ws (some sid) (InEvent.directMessage (some (rid, content))) true).2.2) ∧
    (∀ c ∈ st.registry rid, c.isOpen = false → c.id ≠ ws.id →
       (∀ c' ∈ st.registry rid, c'.isOpen = true → c'.id ≠ c.id) →
       ∀ e, (c.id, e) ∉
         (wsStep st ws (some sid) (InEvent.directMessage (some (rid, content))) true).2.2) ∧
    ((st.registry rid).filter (fun c => c.isOpen) ≠ [] →
       (wsStep st ws (some sid) (InEvent.directMessage (some (rid, content))) true).1.registry
         rid = (st.registry rid).filter (fun c => c.isOpen)) ∧
    ((st.registry rid).filter (fun c => c.isOpen) = [] →
       (wsStep st ws (some sid)
         (InEvent.directMessage (some (rid, content))) true).1.registry = st.registry) := by
  have houts : (wsStep st ws (some sid)
      (InEvent.directMessage (some (rid, content))) true).2.2 =
      (ws.id, OutEvent.messageSent (createDirectMessage st.db sid rid content).1) ::
        ((st.registry rid).filter (fun c => c.isOpen)).map
          (fun c => (c.id, OutEvent.newMessage
            (createDirectMessage st.db sid rid content).1
            (senderInfoOf (createDirectMessage st.db sid rid content).2 sid))) := by
    simp [wsStep, hcan]
  have hreg : (wsStep st ws (some sid)
      (InEvent.directMessage (some (rid, content))) true).1.registry =
      (if ((st.registry rid).filter (fun c => c.isOpen)).length > 0
       then st.registry.update rid ((st.registry rid).filter (fun c => c.isOpen))
       else st.registry) := by
    simp [wsStep, hcan]
  refine ⟨?_, ?_, ?_, ?_, ?_⟩
  · rw [houts]
    exact List.mem_cons_self _ _
  · intro c hc hopen
    rw [houts]
    exact List.mem_cons_of_mem _
      (List.mem_map.mpr ⟨c, List.mem_filter.mpr ⟨hc, hopen⟩, rfl⟩)
  · intro c hc hclosed hnid hids e
    rw [houts]
    intro hmem
    rcases List.mem_cons.mp hmem with heq | hmap
    · exact hnid (congrArg Prod.fst heq)
    · obtain ⟨c', hc', heq⟩ := List.mem_map.mp hmap
      obtain ⟨hc'mem, hc'open⟩ := List.mem_filter.mp hc'
      exact hids c' hc'mem hc'open (congrArg Prod.fst heq)
  · intro hne
    rw [hreg, if_pos (List.length_pos.mpr hne)]
    show (if rid = rid then _ else _) = _
    rw [if_pos rfl]
  · intro hemp
    rw [hreg, if_neg]
    rw [hemp]
    simp

/--
**C4, counterexample.** A well-formed `direct_message` frame arriving on a
connection that has not authenticated is *silently ignored*: no event at all
is emitted (in particular no `error` event, contradicting the claim), and no
state changes.  The `else if (data.type === 'direct_message' && userId)`
chain has no final `else`, so the frame falls through every branch.
-/
theorem ws_unauth_direct_message_dropped :
    wsStep stPair wsSender none (InEvent.directMessage (some (2, "hi"))) true =
      (stPair, none, []) := rfl

/--
**C4, amended.** Any non-`auth` event received on an unauthenticated
connection is silently dropped: nothing is persisted, the registry is
unchanged, the connection stays unauthenticated, and *no* event — not even
an `error` — is emitted on any connection.  (Only an unparsable frame
produces an error, via the surrounding `catch`.)
-/
theorem ws_unauthenticated_ignored (st : ServerState) (ws : Conn) (ev : InEvent)
    (ok : Bool) (h : ∀ u, ev ≠ InEvent.auth u) :
    wsStep st ws none ev ok = (st, none, []) := by
  cases ev with
  | auth u => exact absurd rfl (h u)
  | directMessage p => rfl
  | markRead s => rfl
  | otherEvent => rfl

/--
**C5, counterexample.** The relay performs no `senderId ≠ receiverId`
validation: with an accepted connection record whose two endpoints are both
user 1 (`dbSelf`), a `direct_message` from user 1 to receiver 1 passes the
authorization gate and a message with `senderId = receiverId` is persisted,
contradicting the claim that the relay validates distinctness before
authorization.
-/
theorem ws_self_message_persisted :
    ((wsStep stSelf wsSender (some 1)
        (InEvent.directMessage (some (1, "note"))) true).1.db.messages.any
      (fun m => m.senderId == m.receiverId)) = true := by
  decide

/--
**C5, amended.** Neither the WebSocket `direct_message` handler nor
`POST /api/messages` checks that sender and receiver differ (the WS handler
validates only the presence of `receiverId` and `content`; the HTTP handler
only field types): whenever the authorization gate passes for a
self-directed send — e.g. an accepted self-connection record exists — both
operations persist a message whose sender equals its receiver.
-/
theorem ws_self_message_possible (st : ServerState) (ws : Conn) (sid : Nat)
    (content : String) (c : UserConnection)
    (hc : getUserConnectionByUsers st.db sid sid = some c)
    (hst : c.status = "accepted") :
    ((wsStep st ws (some sid)
        (InEvent.directMessage (some (sid, content))) true).1.db.messages.any
      (fun m => m.senderId == m.receiverId)) = true ∧
    ((postMessages st.db sid sid sid content).1.messages.any
      (fun m => m.senderId == m.receiverId)) = true := by
  have hcan : canMessage st.db sid sid = true := by
    rw [canMessage]
    simp [hc, hst]
  constructor
  · have hdb : (wsStep st ws (some sid)
        (InEvent.directMessage (some (sid, content))) true).1.db =
        (createDirectMessage st.db sid sid content).2 := by
      simp [wsStep, hcan]
    rw [hdb]
    show (st.db.messages ++ [_]).any _ = true
    rw [List.any_eq_true]
    exact ⟨_, List.mem_append_right _ (List.mem_singleton_self _), by simp⟩
  · simp only [postMessages, if_neg (show ¬(sid ≠ sid) from fun hh => hh rfl), hc]
    rw [if_pos (show (c.status == "accepted") = true by simp [hst])]
    show (st.db.messages ++ [_]).any _ = true
    rw [List.any_eq_true]
    exact ⟨_, List.mem_append_right _ (List.mem_singleton_self _), by simp⟩

/-! ## Non-vacuity witnesses: the theorems applied at concrete states -/

/-- Witness for C1: users 3 and 4 of `stNoRel` share no connection record and
no match, and the relay answers the send with exactly the error event. -/
theorem wsDirectMessage_unauthorized_denied_witness :
    (∀ c ∈ stNoRel.db.connections,
      ((c.requesterId = 3 ∧ c.receiverId = 4) ∨
       (c.requesterId = 4 ∧ c.receiverId = 3)) → c.status ≠ "accepted") ∧
    (∀ mt ∈ stNoRel.db.matchRecs, mt.status = "approved" →
      ¬((mt.mentorId = 3 ∧ mt.menteeId = 4) ∨
        (mt.mentorId = 4 ∧ mt.menteeId = 3))) ∧
    wsStep stNoRel ⟨7, true⟩ (some 3) (InEvent.directMessage (some (4, "hello"))) true =
      (stNoRel, some 3,
       [(7, OutEvent.errorEv
           "No active connection or mentorship relationship with this user")]) :=
  ⟨by decide, by decide,
    wsDirectMessage_unauthorized_denied stNoRel ⟨7, true⟩ 3 4 "hello" true
      (by decide) (by decide)⟩

/-- Witness for C2: the accepted send in `stPair` echoes `message_sent` to the
sender and the echoed message is retrievable from the resulting store. -/
theorem wsDirectMessage_persist_before_delivery_witness :
    ((100, OutEvent.newMessage ⟨1, 1, 2, "hi", false, 5⟩ none) ∈
        (wsStep stPair wsSender (some 1)
          (InEvent.directMessage (some (2, "hi"))) true).2.2 ∨
     (100, OutEvent.messageSent ⟨1, 1, 2, "hi", false, 5⟩) ∈
        (wsStep stPair wsSender (some 1)
          (InEvent.directMessage (some (2, "hi"))) true).2.2) ∧
    (true = true ∧
     (⟨1, 1, 2, "hi", false, 5⟩ : DirectMessage) ∈
       getConversation (wsStep stPair wsSender (some 1)
         (InEvent.directMessage (some (2, "hi"))) true).1.db 1 2) :=
  ⟨by decide,
    wsDirectMessage_persist_before_delivery stPair wsSender 1 (some (2, "hi")) true 100
      ⟨1, 1, 2, "hi", false, 5⟩ none (by decide)⟩

/-- Witness for the amended C3: in `stPair` the gate allows the send and the
sender's connection receives `message_sent` with the persisted message. -/
theorem wsDirectMessage_fanout_witness :
    canMessage stPair.db 1 2 = true ∧
    ((wsSender.id, OutEvent.messageSent (createDirectMessage stPair.db 1 2 "hi").1) ∈
      (wsStep stPair wsSender (some 1)
        (InEvent.directMessage (some (2, "hi"))) true).2.2) :=
  ⟨by decide, (wsDirectMessage_fanout stPair wsSender 1 2 "hi" (by decide)).1⟩

/-- Witness for the amended C4: a `mark_read` frame is not an `auth` frame,
and on an unauthenticated connection it is dropped without any emission. -/
theorem ws_unauthenticated_ignored_witness :
    (∀ u, InEvent.markRead (some 1) ≠ InEvent.auth u) ∧
    wsStep stPair wsSender none (InEvent.markRead (some 1)) true = (stPair, none, []) :=
  ⟨(fun _ h => nomatch h),
    ws_unauthenticated_ignored stPair wsSender (InEvent.markRead (some 1)) true
      (fun _ h => nomatch h)⟩

/-- Witness for the amended C5: `stSelf` holds an accepted self-connection
for user 1, and both send paths persist a self-addressed message. -/
theorem ws_self_message_possible_witness :
    getUserConnectionByUsers stSelf.db 1 1 = some ⟨1, 1, 1, "accepted"⟩ ∧
    ("accepted" : String) = "accepted" ∧
    (((wsStep stSelf wsSender (some 1)
         (InEvent.directMessage (some (1, "note"))) true).1.db.messages.any
        (fun m => m.senderId == m.receiverId)) = true ∧
     ((postMessages stSelf.db 1 1 1 "note").1.messages.any
        (fun m => m.senderId == m.receiverId)) = true) :=
  ⟨by decide, rfl,
    ws_self_message_possible stSelf wsSender 1 "note" ⟨1, 1, 1, "accepted"⟩
      (by decide) rfl⟩

/-- Witness for C6: in `dbRej` the pair 1–2 has a rejected record; a fresh
request from user 2 (the original *receiver*) flips that record to pending
with no new record, exercising the either-party reopening. -/
theorem postConnections_existing_pair_witness :
    (2 : Nat) = 2 ∧
    getUserConnectionByUsers dbRej 2 1 = some ⟨1, 1, 2, "rejected"⟩ ∧
    ((("rejected" : String) = "rejected" →
       (postConnections dbRej 2 2 1).1.connections =
         dbRej.connections.map
           (fun x => if x.id == (1 : Nat) then { x with status := "pending" } else x) ∧
       (postConnections dbRej 2 2 1).2.1 = 200) ∧
     (("rejected" : String) ≠ "rejected" →
       (postConnections dbRej 2 2 1).1 = dbRej ∧
       (postConnections dbRej 2 2 1).2 = (400, "Connection already exists"))) :=
  ⟨rfl, by decide,
    postConnections_existing_pair dbRej 2 2 1 ⟨1, 1, 2, "rejected"⟩ rfl (by decide)⟩

/-- Witness for C8: `dbMsgs` is stored in non-decreasing timestamp order and
its 1–2 conversation read returns exactly the append-order filtered store. -/
theorem getConversation_exact_sorted_witness :
    List.Sorted msgLE dbMsgs.messages ∧
    getConversation dbMsgs 1 2 = dbMsgs.messages.filter (between 1 2) :=
  ⟨by decide, (getConversation_exact_sorted dbMsgs 1 2).2.2.1 (by decide)⟩

/-- Witness for C9: clearing 1–2 in `dbMsgs` leaves the unrelated 1–3 pair's
conversation untouched. -/
theorem clearConversation_total_witness :
    ¬(((1 : Nat) = 1 ∧ (3 : Nat) = 2) ∨ ((1 : Nat) = 2 ∧ (3 : Nat) = 1)) ∧
    getConversation (clearConversation dbMsgs 1 2).2 1 3 = getConversation dbMsgs 1 3 :=
  ⟨by decide, (clearConversation_total dbMsgs 1 2).2.2 1 3 (by decide)⟩

/-- Witness for C10: viewing the 1–2 conversation as user 1 leaves user 1's
unread count unchanged in `dbMsgs`. -/
theorem conversationRead_marks_sent_direction_witness :
    getUserConnectionByUsers dbMsgs 1 2 = some ⟨1, 1, 2, "accepted"⟩ ∧
    ("accepted" : String) = "accepted" ∧ (1 : Nat) ≠ 2 ∧
    getUnreadMessageCount (getConversationEndpoint dbMsgs 1 2).1 1 =
      getUnreadMessageCount dbMsgs 1 :=
  ⟨by decide, rfl, by decide,
    (conversationRead_marks_sent_direction dbMsgs 1 2 ⟨1, 1, 2, "accepted"⟩
      (by decide) rfl (by decide)).2.1⟩
